import Mathlib

/-!
Shallow embedding of the wondercard PS1 memory-card protocol emulation
(src/wondercard/src/MemoryCard.cpp and src/wondercard/src/MemoryCardSlot.cpp),
together with theorems checking the natural-language specification against it.

Modelling conventions:
* C++ `Byte` (std::uint8_t) values are modelled as `Nat`; the C++ type system
  guarantees every byte is < 256, which appears as explicit hypotheses where
  a theorem quantifies over byte values.
* `TriState` (std::optional<Byte>) is `Option Nat`, `none` being high-impedance.
* The 131072-byte backing store `_bytes` is a total function `Nat -> Nat`;
  the protocol only ever indexes it below 131072 (claim C10).
* `MemoryCard::send`'s in-out parameter `data` is made explicit: the model
  takes the current value of the caller's variable and returns its new value
  (C++ branches that do not assign `data` return it unchanged).
* `_byte_counter++` on a uint8 wraps mod 256, hence the `% 256`.
* `~checksum` on a uint8 equals `checksum ^^^ 0xFF` for checksum < 256 (which
  holds in every state reachable with byte-valued inputs).
-/

namespace Wondercard

abbrev Byte := Nat

abbrev TriState := Option Nat

/-- Number of Blocks on the card (MemoryCard.hpp). -/
def CARD_BLOCK_COUNT : Nat := 16

/-- Number of Sectors in a Block (MemoryCard.hpp). -/
def BLOCK_SECTOR_COUNT : Nat := 64

/-- Number of bytes in a Sector (MemoryCard.hpp). -/
def SECTOR_SIZE : Nat := 128

/-- Number of bytes in a Block (MemoryCard.hpp). -/
def BLOCK_SIZE : Nat := BLOCK_SECTOR_COUNT * SECTOR_SIZE

/-- Number of bytes in a MemoryCard (MemoryCard.hpp). -/
def CARD_SIZE : Nat := CARD_BLOCK_COUNT * BLOCK_SIZE

/-- MemoryCard::_LAST_SECTOR. -/
def LAST_SECTOR : Nat := 0x3FF

/-- MemoryCard::_FLAG_INIT_VALUE. -/
def FLAG_INIT_VALUE : Nat := 0x08

/-- MemoryCard::ReadState (MemoryCard.hpp). -/
inductive ReadState
  | recvMemcardId1
  | recvMemcardId2
  | sendAddressMSB
  | sendAddressLSB
  | recvCommandAck1
  | recvCommandAck2
  | recvConfirmAddressMSB
  | recvConfirmAddressLSB
  | recvDataSector
  | recvChecksum
  | recvEndByte
  deriving DecidableEq, Repr

/-- MemoryCard::WriteState (MemoryCard.hpp). -/
inductive WriteState
  | recvMemcardId1
  | recvMemcardId2
  | sendAddressMSB
  | sendAddressLSB
  | sendDataSector
  | sendChecksum
  | recvCommandAck1
  | recvCommandAck2
  | recvEndByte
  deriving DecidableEq, Repr

/-- MemoryCard::GetIdState (MemoryCard.hpp). -/
inductive GetIdState
  | recvMemcardId1
  | recvMemcardId2
  | recvCommandAck1
  | recvCommandAck2
  | recvInfo1
  | recvInfo2
  | recvInfo3
  | recvInfo4
  deriving DecidableEq, Repr

/-- MemoryCard::State together with the active member of the _sub_state union
(the union's active member is exactly the sub-machine selected by _state). -/
inductive CardState
  | idle
  | awaitingCommand
  | readDataCommand (rs : ReadState)
  | writeDataCommand (ws : WriteState)
  | getMemcardIdCommand (gs : GetIdState)
  deriving DecidableEq, Repr

/-- The MemoryCard object: _powered_on, _flag, _state (+ _sub_state),
_address, _byte_counter, _checksum and the backing store _bytes. -/
structure MemoryCard where
  powered_on : Bool
  flag : Nat
  state : CardState
  address : Nat
  byte_counter : Nat
  checksum : Nat
  bytes : Nat → Nat

/-- MemoryCard::MemoryCard(data): fresh card holding the given bytes; the
scratch registers start at the given values (uninitialised in C++). -/
def MemoryCard.fresh (B : Nat → Nat) : MemoryCard :=
  { powered_on := false
    flag := FLAG_INIT_VALUE
    state := .idle
    address := 0
    byte_counter := 0
    checksum := 0
    bytes := B }

/-- MemoryCard::power_on. -/
def MemoryCard.power_on (c : MemoryCard) : Bool × MemoryCard :=
  if c.powered_on = false then
    (true, { c with powered_on := true, flag := FLAG_INIT_VALUE, state := .idle })
  else
    (false, c)

/-- MemoryCard::power_off (std::exchange(_powered_on, false)). -/
def MemoryCard.power_off (c : MemoryCard) : Bool × MemoryCard :=
  (c.powered_on, { c with powered_on := false })

/-- MemoryCard::get_sector(i), as the map sending a byte offset j inside the
sector to the stored byte _bytes[i * SECTOR_SIZE + j]. -/
def MemoryCard.get_sector (c : MemoryCard) (i : Nat) : Nat → Nat :=
  fun j => c.bytes (i * SECTOR_SIZE + j)

/-- MemoryCard::read_data_command: one step of the read-sector sub-machine.
Returns (ack, new value of the data in-out parameter, card after the step). -/
def MemoryCard.read_data_command (c : MemoryCard) (rs : ReadState)
    (command : TriState) (_data : TriState) : Bool × TriState × MemoryCard :=
  match rs with
  | .recvMemcardId1 =>
      (true, some 0x5A, { c with state := .readDataCommand .recvMemcardId2 })
  | .recvMemcardId2 =>
      (true, some 0x5D, { c with state := .readDataCommand .sendAddressMSB })
  | .sendAddressMSB =>
      let ck := command.getD 0xFF
      (true, some 0x00,
        { c with checksum := ck, address := ck <<< 8,
                 state := .readDataCommand .sendAddressLSB })
  | .sendAddressLSB =>
      let addr := c.address ||| command.getD 0xFF
      let ck := c.checksum ^^^ (addr &&& 0xFF)
      let addr2 := if addr > LAST_SECTOR then 0xFFFF else addr
      (true, some 0x00,
        { c with address := addr2, checksum := ck,
                 state := .readDataCommand .recvCommandAck1 })
  | .recvCommandAck1 =>
      (true, some 0x5C, { c with state := .readDataCommand .recvCommandAck2 })
  | .recvCommandAck2 =>
      (true, some 0x5D, { c with state := .readDataCommand .recvConfirmAddressMSB })
  | .recvConfirmAddressMSB =>
      (true, some (c.address >>> 8),
        { c with state := .readDataCommand .recvConfirmAddressLSB })
  | .recvConfirmAddressLSB =>
      let lsb := c.address &&& 0xFF
      if c.address = 0xFFFF then
        (false, some lsb, { c with state := .idle })
      else
        (true, some lsb,
          { c with byte_counter := 0x00, state := .readDataCommand .recvDataSector })
  | .recvDataSector =>
      let b := c.get_sector c.address c.byte_counter
      let ck := c.checksum ^^^ b
      let bc := (c.byte_counter + 1) % 256
      let rs2 : ReadState := if bc = 128 then .recvChecksum else .recvDataSector
      (true, some b,
        { c with checksum := ck, byte_counter := bc, state := .readDataCommand rs2 })
  | .recvChecksum =>
      (true, some c.checksum, { c with state := .readDataCommand .recvEndByte })
  | .recvEndByte =>
      (false, some 0x47, { c with state := .idle })

/-- MemoryCard::write_data_command: one step of the write-sector sub-machine. -/
def MemoryCard.write_data_command (c : MemoryCard) (ws : WriteState)
    (command : TriState) (_data : TriState) : Bool × TriState × MemoryCard :=
  match ws with
  | .recvMemcardId1 =>
      (true, some 0x5A, { c with state := .writeDataCommand .recvMemcardId2 })
  | .recvMemcardId2 =>
      (true, some 0x5D, { c with state := .writeDataCommand .sendAddressMSB })
  | .sendAddressMSB =>
      let ck := command.getD 0xFF
      (true, some 0x00,
        { c with checksum := ck, address := ck <<< 8,
                 state := .writeDataCommand .sendAddressLSB })
  | .sendAddressLSB =>
      let addr := c.address ||| command.getD 0xFF
      let ck := c.checksum ^^^ (addr &&& 0xFF)
      let addr2 := if addr > LAST_SECTOR then 0xFFFF else addr
      (true, some 0x00,
        { c with address := addr2, checksum := ck, byte_counter := 0x00,
                 state := .writeDataCommand .sendDataSector })
  | .sendDataSector =>
      let write_byte := command.getD 0xFF
      let B :=
        if c.address ≠ 0xFFFF then
          Function.update c.bytes (c.address * SECTOR_SIZE + c.byte_counter) write_byte
        else c.bytes
      let ck := c.checksum ^^^ write_byte
      let bc := (c.byte_counter + 1) % 256
      let ws2 : WriteState := if bc = 128 then .sendChecksum else .sendDataSector
      (true, some 0x00,
        { c with bytes := B, checksum := ck, byte_counter := bc,
                 state := .writeDataCommand ws2 })
  | .sendChecksum =>
      let sent_checksum := command.getD (c.checksum ^^^ 0xFF)
      let ck := if sent_checksum = c.checksum then 0x00 else 0xFF
      (true, some 0x00,
        { c with checksum := ck, state := .writeDataCommand .recvCommandAck1 })
  | .recvCommandAck1 =>
      (true, some 0x5C, { c with state := .writeDataCommand .recvCommandAck2 })
  | .recvCommandAck2 =>
      (true, some 0x5D, { c with state := .writeDataCommand .recvEndByte })
  | .recvEndByte =>
      let d : TriState :=
        if c.address = 0xFFFF then some 0xFF
        else if c.checksum = 0xFF then some 0x4E
        else some 0x47
      (false, d, { c with state := .idle })

/-- MemoryCard::get_memcard_id_command: one step of the identify sub-machine. -/
def MemoryCard.get_memcard_id_command (c : MemoryCard) (gs : GetIdState)
    (_command : TriState) (_data : TriState) : Bool × TriState × MemoryCard :=
  match gs with
  | .recvMemcardId1 =>
      (true, some 0x5A, { c with state := .getMemcardIdCommand .recvMemcardId2 })
  | .recvMemcardId2 =>
      (true, some 0x5D, { c with state := .getMemcardIdCommand .recvCommandAck1 })
  | .recvCommandAck1 =>
      (true, some 0x5C, { c with state := .getMemcardIdCommand .recvCommandAck2 })
  | .recvCommandAck2 =>
      (true, some 0x5D, { c with state := .getMemcardIdCommand .recvInfo1 })
  | .recvInfo1 =>
      (true, some 0x04, { c with state := .getMemcardIdCommand .recvInfo2 })
  | .recvInfo2 =>
      (true, some 0x00, { c with state := .getMemcardIdCommand .recvInfo3 })
  | .recvInfo3 =>
      (true, some 0x00, { c with state := .getMemcardIdCommand .recvInfo4 })
  | .recvInfo4 =>
      (false, some 0x80, { c with state := .idle })

/-- MemoryCard::send: one byte-level transfer. Takes the command and the
current value of the caller's data variable; returns (ack, new data, card). -/
def MemoryCard.send (c : MemoryCard) (command : TriState) (data : TriState) :
    Bool × TriState × MemoryCard :=
  if c.powered_on = false then
    (false, data, c)
  else
    match c.state with
    | .idle =>
        if command = some 0x81 then
          (true, data, { c with state := .awaitingCommand })
        else
          (false, data, c)
    | .awaitingCommand =>
        let d := some c.flag
        let cv := command.getD 0x00
        if cv = 0x52 then
          (true, d, { c with state := .readDataCommand .recvMemcardId1 })
        else if cv = 0x57 then
          (true, d, { c with state := .writeDataCommand .recvMemcardId1 })
        else if cv = 0x53 then
          (true, d, { c with state := .getMemcardIdCommand .recvMemcardId1 })
        else
          (false, d, { c with state := .idle })
    | .readDataCommand rs => c.read_data_command rs command data
    | .writeDataCommand ws => c.write_data_command ws command data
    | .getMemcardIdCommand gs => c.get_memcard_id_command gs command data

/-- The MemoryCardSlot object: holds zero or one inserted card. The C++ slot
holds a pointer to an externally owned card; in the model the slot holds the
card value itself, and operations that in C++ mutate the pointed-to card
return the updated card inside the updated slot. -/
structure MemoryCardSlot where
  inserted_card : Option MemoryCard

/-- MemoryCardSlot::MemoryCardSlot(): empty slot. -/
def MemoryCardSlot.emptySlot : MemoryCardSlot := ⟨none⟩

/-- MemoryCardSlot::send: forwards the transfer to the inserted card.
Returns (ack, new value of the data variable, slot). -/
def MemoryCardSlot.send (s : MemoryCardSlot) (command : TriState) (data : TriState) :
    Bool × TriState × MemoryCardSlot :=
  match s.inserted_card with
  | none => (false, data, s)
  | some card =>
      let r := card.send command data
      (r.1, r.2.1, ⟨some r.2.2⟩)

/-- MemoryCardSlot::insert_card. The inserted card is the caller's card after
the power_on attempt. -/
def MemoryCardSlot.insert_card (s : MemoryCardSlot) (card : MemoryCard) :
    Bool × MemoryCardSlot :=
  match s.inserted_card with
  | some _ => (false, s)
  | none =>
      let r := card.power_on
      if r.1 = false then (false, s)
      else (true, ⟨some r.2⟩)

/-- MemoryCardSlot::remove_card. The third component is the state of the
removed (externally owned) card after the slot powered it off. -/
def MemoryCardSlot.remove_card (s : MemoryCardSlot) :
    Bool × MemoryCardSlot × Option MemoryCard :=
  match s.inserted_card with
  | none => (false, s, none)
  | some card => (true, ⟨none⟩, some card.power_off.2)

/-- The command/valid_responses loop shared by the headers of
MemoryCardSlot::read_sector and MemoryCardSlot::write_sector: sends each
command, bails (Bool false) on a missing ACK or an unexpected response
(none in the second component means a don't-care response). -/
def sendCommandSeq (c : MemoryCard) (output : TriState) :
    List (Nat × TriState) → Bool × TriState × MemoryCard
  | [] => (true, output, c)
  | (cmd, expected) :: rest =>
      let r := c.send (some cmd) output
      if r.1 = false then (false, r.2.1, r.2.2)
      else if expected ≠ none ∧ r.2.1 ≠ expected then (false, r.2.1, r.2.2)
      else sendCommandSeq r.2.2 r.2.1 rest

/-- The 128-iteration data loop of MemoryCardSlot::read_sector: sends 0x00,
requires an ACK and a concrete response byte each time, collects the bytes
(in order, as stored into the out span) and accumulates the checksum. -/
def readSectorData (c : MemoryCard) (output : TriState) (checksum : Nat) :
    Nat → Bool × List Nat × Nat × TriState × MemoryCard
  | 0 => (true, [], checksum, output, c)
  | n + 1 =>
      let r := c.send (some 0x00) output
      if r.1 = false then (false, [], checksum, r.2.1, r.2.2)
      else
        match r.2.1 with
        | none => (false, [], checksum, none, r.2.2)
        | some b =>
            let rec2 := readSectorData r.2.2 (some b) (checksum ^^^ b) n
            (rec2.1, b :: rec2.2.1, rec2.2.2.1, rec2.2.2.2.1, rec2.2.2.2.2)

/-- The 128-iteration data loop of MemoryCardSlot::write_sector: sends each
data byte, requires an ACK, and accumulates the checksum. -/
def writeSectorData (c : MemoryCard) (output : TriState) (checksum : Nat) :
    List Nat → Bool × TriState × Nat × MemoryCard
  | [] => (true, output, checksum, c)
  | b :: rest =>
      let r := c.send (some b) output
      if r.1 = false then (false, r.2.1, checksum, r.2.2)
      else writeSectorData r.2.2 r.2.1 (checksum ^^^ b) rest

/-- The trailing loop of MemoryCardSlot::write_sector: sends 0x00 three times;
an ACK is required on all but the last iteration, and the response is checked
against footer_responses (0x5C, 0x5D, don't-care). -/
def writeSectorFooter (c : MemoryCard) (output : TriState) :
    List (TriState × Bool) → Bool × TriState × MemoryCard
  | [] => (true, output, c)
  | (expected, ackRequired) :: rest =>
      let r := c.send (some 0x00) output
      if r.1 = false ∧ ackRequired then (false, r.2.1, r.2.2)
      else if expected ≠ none ∧ r.2.1 ≠ expected then (false, r.2.1, r.2.2)
      else writeSectorFooter r.2.2 r.2.1 rest

/-- The out span of read_sector after the data loop stored `ds`: the first
ds.length entries of the caller's buffer are overwritten in order. -/
def storeInto (buf ds : List Nat) : List Nat :=
  ds ++ buf.drop ds.length

/-- MemoryCardSlot::read_sector. Returns (result, out buffer, slot). -/
def MemoryCardSlot.read_sector (s : MemoryCardSlot) (index : Nat) (buf : List Nat) :
    Bool × List Nat × MemoryCardSlot :=
  match s.inserted_card with
  | none => (false, buf, s)
  | some card =>
      let msb := (index &&& 0x300) >>> 8
      let lsb := index &&& 0x0FF
      let header : List (Nat × TriState) :=
        [(0x81, none), (0x52, none), (0x00, some 0x5A), (0x00, some 0x5D),
         (msb, none), (lsb, none), (0x00, some 0x5C), (0x00, some 0x5D),
         (0x00, some msb), (0x00, some lsb)]
      let h := sendCommandSeq card none header
      if h.1 = false then (false, buf, ⟨some h.2.2⟩)
      else
        let d := readSectorData h.2.2 h.2.1 (msb ^^^ lsb) SECTOR_SIZE
        if d.1 = false then (false, storeInto buf d.2.1, ⟨some d.2.2.2.2⟩)
        else
          let r1 := d.2.2.2.2.send (some 0x00) none
          if r1.1 = false then (false, storeInto buf d.2.1, ⟨some r1.2.2⟩)
          else
            let r2 := r1.2.2.send (some 0x00) d.2.2.2.1
            ((r2.1 == false) && (r2.2.1 == some 0x47) && (r1.2.1 == some d.2.2.1),
             storeInto buf d.2.1, ⟨some r2.2.2⟩)

/-- MemoryCardSlot::write_sector. Returns (result, slot). -/
def MemoryCardSlot.write_sector (s : MemoryCardSlot) (index : Nat) (data : List Nat) :
    Bool × MemoryCardSlot :=
  match s.inserted_card with
  | none => (false, s)
  | some card =>
      let msb := (index &&& 0x300) >>> 8
      let lsb := index &&& 0x0FF
      let header : List (Nat × TriState) :=
        [(0x81, none), (0x57, none), (0x00, some 0x5A), (0x00, some 0x5D),
         (msb, none), (lsb, none)]
      let h := sendCommandSeq card none header
      if h.1 = false then (false, ⟨some h.2.2⟩)
      else
        let w := writeSectorData h.2.2 h.2.1 (msb ^^^ lsb) data
        if w.1 = false then (false, ⟨some w.2.2.2⟩)
        else
          let r1 := w.2.2.2.send (some w.2.2.1) w.2.1
          if r1.1 = false then (false, ⟨some r1.2.2⟩)
          else
            let f := writeSectorFooter r1.2.2 r1.2.1
              [(some 0x5C, true), (some 0x5D, true), (none, false)]
            if f.1 = false then (false, ⟨some f.2.2⟩)
            else ((f.2.1 == some 0x47), ⟨some f.2.2⟩)

/-- MemoryCardSlot::write_block: the source body is a bare `return;` stub,
performing no transfer and touching neither the slot nor the card. -/
def MemoryCardSlot.write_block (s : MemoryCardSlot) (_index : Nat) (_data : List Nat) :
    MemoryCardSlot :=
  s

/-- MemoryCardSlot::write_card: the source body is a bare `return;` stub. -/
def MemoryCardSlot.write_card (s : MemoryCardSlot) (_data : List Nat) :
    MemoryCardSlot :=
  s

/-- MemoryCardSlot::_read_block_sector template recursion, with fuel: reads
`n` consecutive sectors starting at sector blockSector + k into the slice of
the block buffer at offset k * SECTOR_SIZE, short-circuiting on failure. -/
def readBlockSectors (s : MemoryCardSlot) (blockSector : Nat) (k : Nat)
    (buf : List Nat) : Nat → Bool × List Nat × MemoryCardSlot
  | 0 => (true, buf, s)
  | n + 1 =>
      let slice := (buf.drop (k * SECTOR_SIZE)).take SECTOR_SIZE
      let r := s.read_sector (blockSector + k) slice
      let buf2 := buf.take (k * SECTOR_SIZE) ++ r.2.1 ++ buf.drop ((k + 1) * SECTOR_SIZE)
      if r.1 = false then (false, buf2, r.2.2)
      else
        let rest := readBlockSectors r.2.2 blockSector (k + 1) buf2 n
        (rest.1, rest.2.1, rest.2.2)

/-- MemoryCardSlot::read_block. -/
def MemoryCardSlot.read_block (s : MemoryCardSlot) (index : Nat) (buf : List Nat) :
    Bool × List Nat × MemoryCardSlot :=
  match s.inserted_card with
  | none => (false, buf, s)
  | some _ => readBlockSectors s (index <<< 6) 0 buf BLOCK_SECTOR_COUNT

/-- MemoryCardSlot::_read_card_block template recursion, with fuel. -/
def readCardBlocks (s : MemoryCardSlot) (k : Nat) (buf : List Nat) :
    Nat → Bool × List Nat × MemoryCardSlot
  | 0 => (true, buf, s)
  | n + 1 =>
      let slice := (buf.drop (k * BLOCK_SIZE)).take BLOCK_SIZE
      let r := s.read_block k slice
      let buf2 := buf.take (k * BLOCK_SIZE) ++ r.2.1 ++ buf.drop ((k + 1) * BLOCK_SIZE)
      if r.1 = false then (false, buf2, r.2.2)
      else
        let rest := readCardBlocks r.2.2 (k + 1) buf2 n
        (rest.1, rest.2.1, rest.2.2)

/-- MemoryCardSlot::read_card. -/
def MemoryCardSlot.read_card (s : MemoryCardSlot) (buf : List Nat) :
    Bool × List Nat × MemoryCardSlot :=
  match s.inserted_card with
  | none => (false, buf, s)
  | some _ => readCardBlocks s 0 buf CARD_BLOCK_COUNT

/-! ## Helper functions and lemmas about the backing store and byte arithmetic -/

/-- Store the bytes of `ds` at consecutive indices starting at `i`. -/
def writeRange : (Nat → Nat) → Nat → List Nat → Nat → Nat
  | B, _, [] => B
  | B, i, b :: bs => writeRange (Function.update B i b) (i + 1) bs

/-- Read `n` bytes at consecutive indices starting at `i`. -/
def readRange : (Nat → Nat) → Nat → Nat → List Nat
  | _, _, 0 => []
  | B, i, n + 1 => B i :: readRange B (i + 1) n

theorem writeRange_apply_lt (ds : List Nat) (B : Nat → Nat) (i j : Nat) (hj : j < i) :
    writeRange B i ds j = B j := by
  induction ds generalizing B i with
  | nil => rfl
  | cons b bs ih =>
      rw [writeRange, ih _ _ (by omega), Function.update_noteq (by omega)]

theorem readRange_writeRange (ds : List Nat) (B : Nat → Nat) (i : Nat) :
    readRange (writeRange B i ds) i ds.length = ds := by
  induction ds generalizing B i with
  | nil => rfl
  | cons b bs ih =>
      rw [List.length_cons, readRange, writeRange,
        writeRange_apply_lt _ _ _ _ (by omega), Function.update_same, ih]

theorem readRange_congr (B B2 : Nat → Nat) (i n : Nat)
    (h : ∀ j, i ≤ j → j < i + n → B j = B2 j) :
    readRange B i n = readRange B2 i n := by
  induction n generalizing i with
  | zero => rfl
  | succ n ih =>
      rw [readRange, readRange, h i (by omega) (by omega), ih _ fun j h1 h2 => h j (by omega) (by omega)]

theorem xor_255_ne (x : Nat) : x ^^^ 0xFF ≠ x := by
  intro h
  have h2 : x ^^^ (x ^^^ 0xFF) = x ^^^ x := by rw [h]
  simp [← Nat.xor_assoc, Nat.xor_self] at h2

set_option maxRecDepth 4096 in
/-- Reconstruction of a valid sector index from the MSB and LSB the slot
derives from it. -/
theorem index_decomp : ∀ i, i < 1024 →
    ((i &&& 0x300) >>> 8) <<< 8 ||| (i &&& 0x0FF) = i ∧
    i >>> 8 = (i &&& 0x300) >>> 8 := by
  decide

theorem lor_shiftLeft_land (m l : Nat) (h : l < 256) :
    (m <<< 8 ||| l) &&& 0xFF = l := by
  apply Nat.eq_of_testBit_eq
  intro i
  simp only [Nat.testBit_land, Nat.testBit_lor, Nat.testBit_shiftLeft]
  by_cases hi : i < 8
  · have h255 : Nat.testBit 0xFF i = true := by
      interval_cases i <;> decide
    simp [h255, Nat.not_le.mpr hi]
  · have h255 : Nat.testBit 0xFF i = false := by
      have : (0xFF : Nat) < 2 ^ i := by
        calc (0xFF : Nat) < 2 ^ 8 := by norm_num
        _ ≤ 2 ^ i := Nat.pow_le_pow_right (by norm_num) (Nat.le_of_not_lt hi)
      exact Nat.testBit_lt_two_pow this
    have hl : Nat.testBit l i = false := by
      have : l < 2 ^ i := by
        calc l < 2 ^ 8 := h
        _ ≤ 2 ^ i := Nat.pow_le_pow_right (by norm_num) (Nat.le_of_not_lt hi)
      exact Nat.testBit_lt_two_pow this
    simp [h255, hl]

/-! ## Evaluation lemmas for the slot-driven write-sector sequence -/

theorem writeSectorData_ok (ds : List Nat) (f a k cs s0 : Nat) (B : Nat → Nat)
    (out : TriState) (hne : ds ≠ []) (hk : k + ds.length = 128) (ha : a ≠ 0xFFFF) :
    writeSectorData ⟨true, f, .writeDataCommand .sendDataSector, a, k, cs, B⟩ out s0 ds =
      (true, some 0x00, List.foldl (fun x y => x ^^^ y) s0 ds,
        ⟨true, f, .writeDataCommand .sendChecksum, a, 128,
          List.foldl (fun x y => x ^^^ y) cs ds,
          writeRange B (a * SECTOR_SIZE + k) ds⟩) := by
  induction ds generalizing k cs s0 B out with
  | nil => exact absurd rfl hne
  | cons b bs ih =>
      have hklt : k < 128 := by simp at hk; omega
      have hmod : (k + 1) % 256 = k + 1 := Nat.mod_eq_of_lt (by omega)
      rcases eq_or_ne bs [] with hbs | hbs
      · subst hbs
        have hk127 : k = 127 := by simp at hk; omega
        subst hk127
        simp [writeSectorData, MemoryCard.send, MemoryCard.write_data_command, ha,
          writeRange, List.foldl]
      · have hlen : bs.length ≠ 0 := fun h => hbs (List.eq_nil_of_length_eq_zero h)
        have hne128 : ¬ (k + 1 = 128) := by
          simp at hk; omega
        rw [writeSectorData]
        simp only [MemoryCard.send, MemoryCard.write_data_command, ha, Option.getD_some,
          ne_eq, not_false_iff, if_true, if_neg hne128, Bool.true_eq_false, if_false,
          ite_true, ite_false, hmod]
        rw [ih (k + 1) (cs ^^^ b) (s0 ^^^ b)
          (Function.update B (a * SECTOR_SIZE + k) b) (some 0x00) hbs
          (by simp at hk ⊢; omega)]
        simp [List.foldl_cons, writeRange, Nat.add_assoc]

theorem writeHeader_ok (f a0 k0 cs0 : Nat) (B : Nat → Nat) (i m l : Nat)
    (hml : m <<< 8 ||| l = i) (hle : i ≤ 0x3FF) :
    sendCommandSeq ⟨true, f, .idle, a0, k0, cs0, B⟩ none
      [(0x81, none), (0x57, none), (0x00, some 0x5A), (0x00, some 0x5D),
       (m, none), (l, none)] =
    (true, some 0x00,
      ⟨true, f, .writeDataCommand .sendDataSector, i, 0, m ^^^ (i &&& 0xFF), B⟩) := by
  have hnotgt : ¬ (i > LAST_SECTOR) := by rw [LAST_SECTOR]; omega
  simp [sendCommandSeq, MemoryCard.send, MemoryCard.write_data_command, hml, hnotgt]

/-- Complete evaluation of MemoryCardSlot::write_sector on a powered idle
card, a sector index below 1024 and a 128-byte payload: it succeeds and the
payload lands in the backing store at offset i * SECTOR_SIZE. -/
theorem write_sector_spec (f a0 k0 cs0 : Nat) (B : Nat → Nat) (i : Nat) (d : List Nat)
    (hi : i < 1024) (hd : d.length = 128) :
    MemoryCardSlot.write_sector ⟨some ⟨true, f, .idle, a0, k0, cs0, B⟩⟩ i d =
      (true, ⟨some ⟨true, f, .idle, i, 128, 0x00, writeRange B (i * SECTOR_SIZE) d⟩⟩) := by
  obtain ⟨hml, hshr⟩ := index_decomp i hi
  have hle : i ≤ 0x3FF := by omega
  have hd0 : d ≠ [] := by intro h; rw [h] at hd; simp at hd
  have hane : i ≠ 0xFFFF := by omega
  rw [MemoryCardSlot.write_sector]
  simp only [writeHeader_ok f a0 k0 cs0 B i ((i &&& 0x300) >>> 8) (i &&& 0x0FF) hml hle]
  rw [writeSectorData_ok d f i 0 (((i &&& 0x300) >>> 8) ^^^ (i &&& 0xFF))
    (((i &&& 0x300) >>> 8) ^^^ (i &&& 0x0FF)) B (some 0x00) hd0 (by rw [hd]) hane]
  simp [MemoryCard.send, MemoryCard.write_data_command, writeSectorFooter, hane]

/-! ## Evaluation lemmas for the slot-driven read-sector sequence -/

theorem readHeader_ok (f a0 k0 cs0 : Nat) (B : Nat → Nat) (i m l : Nat)
    (hml : m <<< 8 ||| l = i) (hshr : i >>> 8 = m) (hlsb : i &&& 0xFF = l)
    (hle : i ≤ 0x3FF) :
    sendCommandSeq ⟨true, f, .idle, a0, k0, cs0, B⟩ none
      [(0x81, none), (0x52, none), (0x00, some 0x5A), (0x00, some 0x5D),
       (m, none), (l, none), (0x00, some 0x5C), (0x00, some 0x5D),
       (0x00, some m), (0x00, some l)] =
    (true, some l,
      ⟨true, f, .readDataCommand .recvDataSector, i, 0, m ^^^ l, B⟩) := by
  have hnotgt : ¬ (i > LAST_SECTOR) := by rw [LAST_SECTOR]; omega
  have hane : ¬ (i = 0xFFFF) := by omega
  simp [sendCommandSeq, MemoryCard.send, MemoryCard.read_data_command, hml, hshr,
    hlsb, hnotgt, hane]

theorem readSectorData_ok (n : Nat) (f a k cs s0 : Nat) (B : Nat → Nat)
    (out : TriState) (hn : n ≠ 0) (hk : k + n = 128) :
    readSectorData ⟨true, f, .readDataCommand .recvDataSector, a, k, cs, B⟩ out s0 n =
      (true, readRange B (a * SECTOR_SIZE + k) n,
        List.foldl (fun x y => x ^^^ y) s0 (readRange B (a * SECTOR_SIZE + k) n),
        some (B (a * SECTOR_SIZE + 127)),
        ⟨true, f, .readDataCommand .recvChecksum, a, 128,
          List.foldl (fun x y => x ^^^ y) cs (readRange B (a * SECTOR_SIZE + k) n),
          B⟩) := by
  induction n generalizing k cs s0 out with
  | zero => exact absurd rfl hn
  | succ n ih =>
      have hmod : (k + 1) % 256 = k + 1 := Nat.mod_eq_of_lt (by omega)
      rcases eq_or_ne n 0 with h0 | h0
      · subst h0
        have hk127 : k = 127 := by omega
        subst hk127
        simp [readSectorData, MemoryCard.send, MemoryCard.read_data_command,
          MemoryCard.get_sector, readRange, List.foldl]
      · have hne128 : ¬ (k + 1 = 128) := by omega
        rw [readSectorData]
        simp only [MemoryCard.send, MemoryCard.read_data_command, MemoryCard.get_sector,
          Option.getD_some, ne_eq, not_false_iff, if_true, hmod, if_neg hne128,
          Bool.true_eq_false, if_false, ite_true, ite_false]
        rw [ih (k + 1) (cs ^^^ B (a * SECTOR_SIZE + k)) (s0 ^^^ B (a * SECTOR_SIZE + k))
          (some (B (a * SECTOR_SIZE + k))) h0 (by omega)]
        simp [readRange, List.foldl_cons, Nat.add_assoc]

/-- Complete evaluation of MemoryCardSlot::read_sector on a powered idle card
and a sector index below 1024: it succeeds and returns the 128 bytes stored at
offset i * SECTOR_SIZE of the backing store. -/
theorem read_sector_spec (f a0 k0 cs0 : Nat) (B : Nat → Nat) (i : Nat)
    (buf : List Nat) (hi : i < 1024) :
    MemoryCardSlot.read_sector ⟨some ⟨true, f, .idle, a0, k0, cs0, B⟩⟩ i buf =
      (true, storeInto buf (readRange B (i * SECTOR_SIZE) SECTOR_SIZE),
        ⟨some ⟨true, f, .idle, i, 128,
          List.foldl (fun x y => x ^^^ y)
            (((i &&& 0x300) >>> 8) ^^^ (i &&& 0x0FF))
            (readRange B (i * SECTOR_SIZE) SECTOR_SIZE), B⟩⟩) := by
  obtain ⟨hml, hshr⟩ := index_decomp i hi
  have hle : i ≤ 0x3FF := by omega
  simp only [MemoryCardSlot.read_sector]
  rw [readHeader_ok f a0 k0 cs0 B i ((i &&& 0x300) >>> 8) (i &&& 0x0FF)
    hml hshr rfl hle]
  dsimp only
  rw [readSectorData_ok SECTOR_SIZE f i 0 (((i &&& 0x300) >>> 8) ^^^ (i &&& 0x0FF))
    (((i &&& 0x300) >>> 8) ^^^ (i &&& 0x0FF)) B (some (i &&& 0x0FF))
    (by decide) (by decide)]
  simp [MemoryCard.send, MemoryCard.read_data_command]

/-! ## Concrete instances used by witnesses and counterexamples -/

/-- All-zero backing store. -/
def zeroBytes : Nat → Nat := fun _ => 0

/-- A powered-on idle card over an all-zero store. -/
def cardZ : MemoryCard := ⟨true, 0x08, .idle, 0, 0, 0, zeroBytes⟩

/-- An unpowered idle card over an all-zero store. -/
def cardOff : MemoryCard := ⟨false, 0x08, .idle, 0, 0, 0, zeroBytes⟩

/-! ## C1 -/

/-- C1: for every sector index i in [0, 1024) and every 128-byte data array d,
if a powered-on card is inserted in a slot and the card's protocol state is
Idle, then slot write_sector(i, d) returns true, and a subsequent slot
read_sector(i, out) returns true and fills out with exactly d. -/
theorem C1_slot_write_read_roundtrip (f a0 k0 cs0 : Nat) (B : Nat → Nat)
    (i : Nat) (d buf : List Nat) (hi : i < 1024) (hd : d.length = 128)
    (_hdb : ∀ b ∈ d, b < 256) (hbuf : buf.length = 128) :
    (MemoryCardSlot.write_sector ⟨some ⟨true, f, .idle, a0, k0, cs0, B⟩⟩ i d).1 = true ∧
    (MemoryCardSlot.read_sector
      (MemoryCardSlot.write_sector ⟨some ⟨true, f, .idle, a0, k0, cs0, B⟩⟩ i d).2
      i buf).1 = true ∧
    (MemoryCardSlot.read_sector
      (MemoryCardSlot.write_sector ⟨some ⟨true, f, .idle, a0, k0, cs0, B⟩⟩ i d).2
      i buf).2.1 = d := by
  rw [write_sector_spec f a0 k0 cs0 B i d hi hd]
  have hsz : SECTOR_SIZE = d.length := by rw [SECTOR_SIZE, hd]
  have key : ∀ p, readRange (writeRange B p d) p SECTOR_SIZE = d := fun p => by
    rw [hsz, readRange_writeRange]
  rw [read_sector_spec f i 128 0x00 (writeRange B (i * SECTOR_SIZE) d) i buf hi]
  refine ⟨rfl, rfl, ?_⟩
  rw [storeInto, key, hd, ← hbuf, List.drop_length, List.append_nil]

set_option maxRecDepth 8192 in
/-- Witness for C1 at sector 5 with payload 128 times 0xAB. -/
theorem C1_witness :
    (MemoryCardSlot.write_sector ⟨some ⟨true, 0x08, .idle, 0, 0, 0, zeroBytes⟩⟩ 5
      (List.replicate 128 0xAB)).1 = true ∧
    (MemoryCardSlot.read_sector
      (MemoryCardSlot.write_sector ⟨some ⟨true, 0x08, .idle, 0, 0, 0, zeroBytes⟩⟩ 5
        (List.replicate 128 0xAB)).2
      5 (List.replicate 128 0)).1 = true ∧
    (MemoryCardSlot.read_sector
      (MemoryCardSlot.write_sector ⟨some ⟨true, 0x08, .idle, 0, 0, 0, zeroBytes⟩⟩ 5
        (List.replicate 128 0xAB)).2
      5 (List.replicate 128 0)).2.1 = List.replicate 128 0xAB :=
  C1_slot_write_read_roundtrip 0x08 0 0 0 zeroBytes 5
    (List.replicate 128 0xAB) (List.replicate 128 0)
    (by decide) (by simp)
    (by intro b hb; have := List.eq_of_mem_replicate hb; omega) (by simp)

/-! ## C2 -/

theorem and_mask_300 (i : Nat) : (i &&& 0x3FF) &&& 0x300 = i &&& 0x300 := by
  have h : ((0x3FF : Nat) &&& 0x300) = 0x300 := by decide
  rw [Nat.and_assoc, h]

theorem and_mask_0FF (i : Nat) : (i &&& 0x3FF) &&& 0x0FF = i &&& 0x0FF := by
  have h : ((0x3FF : Nat) &&& 0x0FF) = 0x0FF := by decide
  rw [Nat.and_assoc, h]

/-- MemoryCardSlot::read_sector only looks at the low 10 bits of the index. -/
theorem read_sector_mask (s : MemoryCardSlot) (i : Nat) (buf : List Nat) :
    s.read_sector i buf = s.read_sector (i &&& 0x3FF) buf := by
  simp only [MemoryCardSlot.read_sector, and_mask_300, and_mask_0FF]

/-- MemoryCardSlot::write_sector only looks at the low 10 bits of the index. -/
theorem write_sector_mask (s : MemoryCardSlot) (i : Nat) (d : List Nat) :
    s.write_sector i d = s.write_sector (i &&& 0x3FF) d := by
  simp only [MemoryCardSlot.write_sector, and_mask_300, and_mask_0FF]

/-- C2 counterexample: at sector index 0x400 (the first out-of-range index),
with a powered idle card inserted, both slot operations return true, not
false: the slot masks the index and operates on sector 0. -/
theorem C2_counterexample :
    (MemoryCardSlot.write_sector ⟨some ⟨true, 0x08, .idle, 0, 0, 0, zeroBytes⟩⟩ 0x400
      (List.replicate 128 0xAB)).1 = true ∧
    (MemoryCardSlot.read_sector ⟨some ⟨true, 0x08, .idle, 0, 0, 0, zeroBytes⟩⟩ 0x400
      (List.replicate 128 0)).1 = true := by
  have hm : ((0x400 : Nat) &&& 0x3FF) = 0 := by decide
  constructor
  · rw [write_sector_mask, hm,
      write_sector_spec 0x08 0 0 0 zeroBytes 0 (List.replicate 128 0xAB)
        (by decide) (by simp)]
  · rw [read_sector_mask, hm,
      read_sector_spec 0x08 0 0 0 zeroBytes 0 (List.replicate 128 0) (by decide)]

/-- C2 amended: for every index i ≥ 0x400 the slot masks the index down to
its low 10 bits, so read_sector and write_sector behave exactly as they do on
sector i &&& 0x3FF; in particular, on a powered idle card with a 128-byte
payload both return true instead of false. -/
theorem C2_amended_masked_index (i : Nat) (f a0 k0 cs0 : Nat) (B : Nat → Nat)
    (d buf : List Nat) (_hi : 0x400 ≤ i) (hd : d.length = 128) :
    (∀ s : MemoryCardSlot, s.read_sector i buf = s.read_sector (i &&& 0x3FF) buf) ∧
    (∀ s : MemoryCardSlot, s.write_sector i d = s.write_sector (i &&& 0x3FF) d) ∧
    (MemoryCardSlot.write_sector ⟨some ⟨true, f, .idle, a0, k0, cs0, B⟩⟩ i d).1 = true ∧
    (MemoryCardSlot.read_sector ⟨some ⟨true, f, .idle, a0, k0, cs0, B⟩⟩ i buf).1 = true := by
  have hlt : i &&& 0x3FF < 1024 := by
    have := Nat.and_le_right (n := i) (m := 0x3FF)
    omega
  refine ⟨fun s => read_sector_mask s i buf, fun s => write_sector_mask s i d, ?_, ?_⟩
  · rw [write_sector_mask, write_sector_spec f a0 k0 cs0 B (i &&& 0x3FF) d hlt hd]
  · rw [read_sector_mask, read_sector_spec f a0 k0 cs0 B (i &&& 0x3FF) buf hlt]

/-- Witness for the amended C2 at index 0x512. -/
theorem C2_witness :
    (∀ s : MemoryCardSlot,
      s.read_sector 0x512 (List.replicate 128 0) =
        s.read_sector (0x512 &&& 0x3FF) (List.replicate 128 0)) ∧
    (∀ s : MemoryCardSlot,
      s.write_sector 0x512 (List.replicate 128 0xAB) =
        s.write_sector (0x512 &&& 0x3FF) (List.replicate 128 0xAB)) ∧
    (MemoryCardSlot.write_sector ⟨some ⟨true, 0x08, .idle, 0, 0, 0, zeroBytes⟩⟩ 0x512
      (List.replicate 128 0xAB)).1 = true ∧
    (MemoryCardSlot.read_sector ⟨some ⟨true, 0x08, .idle, 0, 0, 0, zeroBytes⟩⟩ 0x512
      (List.replicate 128 0)).1 = true :=
  C2_amended_masked_index 0x512 0x08 0 0 0 zeroBytes
    (List.replicate 128 0xAB) (List.replicate 128 0) (by decide) (by simp)

/-! ## C3 -/

/-- C3: the claim states write_block performs 64 in-order sector writes and
returns their conjunction; the source body of MemoryCardSlot::write_block is
a bare return statement. At the failing input (block 0, payload 0xAB bytes,
zeroed card) the slot and card are left untouched, so the card holds 0x00
where its own test suite requires 0xAB, and no result is produced (the .cpp
body even has return type void against the header's bool). -/
theorem C3_write_block_is_noop :
    MemoryCardSlot.write_block ⟨some ⟨true, 0x08, .idle, 0, 0, 0, zeroBytes⟩⟩ 0
        (List.replicate 8192 0xAB) =
      ⟨some ⟨true, 0x08, .idle, 0, 0, 0, zeroBytes⟩⟩ ∧
    (MemoryCardSlot.write_block ⟨some ⟨true, 0x08, .idle, 0, 0, 0, zeroBytes⟩⟩ 0
        (List.replicate 8192 0xAB)).inserted_card =
      some ⟨true, 0x08, .idle, 0, 0, 0, zeroBytes⟩ :=
  ⟨rfl, rfl⟩

/-! ## C6 -/

/-- C6 counterexample: an unpowered card's send leaves the caller's response
variable untouched instead of setting it to the absent value: with prior
value 0x47 the variable still reads 0x47 afterwards, not absent. -/
theorem C6_counterexample :
    (MemoryCard.send ⟨false, 0x08, .idle, 0, 0, 0, zeroBytes⟩ (some 0x00) (some 0x47)).2.1 =
      some 0x47 ∧
    some 0x47 ≠ (none : TriState) :=
  ⟨rfl, by decide⟩

/-- C6 amended: for every unpowered card, every command and every prior value
of the response variable, a transfer returns ack = false, leaves the response
variable unchanged (rather than setting it to absent), and leaves the card's
state unchanged. -/
theorem C6_amended_unpowered_send (c : MemoryCard) (x d : TriState)
    (h : c.powered_on = false) :
    c.send x d = (false, d, c) := by
  simp [MemoryCard.send, h]

/-- Witness for the amended C6. -/
theorem C6_witness :
    MemoryCard.send ⟨false, 0x08, .idle, 0, 0, 0, zeroBytes⟩ (some 0x00) (some 0x47) =
      (false, some 0x47, ⟨false, 0x08, .idle, 0, 0, 0, zeroBytes⟩) :=
  C6_amended_unpowered_send ⟨false, 0x08, .idle, 0, 0, 0, zeroBytes⟩
    (some 0x00) (some 0x47) rfl

/-! ## C7 -/

/-- C7: a powered card in the AwaitingCommand state, receiving a command that
is not 0x52, 0x57 or 0x53 (absent input decoding to 0x00), responds with the
flag byte, does not ACK, and transitions back to Idle. -/
theorem C7_awaiting_reject (c : MemoryCard) (x d : TriState)
    (hp : c.powered_on = true) (hs : c.state = .awaitingCommand)
    (h52 : x.getD 0x00 ≠ 0x52) (h57 : x.getD 0x00 ≠ 0x57)
    (h53 : x.getD 0x00 ≠ 0x53) :
    c.send x d = (false, some c.flag, { c with state := .idle }) := by
  obtain ⟨p, f, st, a, k, cs, B⟩ := c
  simp only at hs hp
  subst hs
  subst hp
  simp [MemoryCard.send, h52, h57, h53]

/-- Witness for C7 with the rejected command byte 0x99. -/
theorem C7_witness :
    MemoryCard.send ⟨true, 0x08, .awaitingCommand, 0, 0, 0, zeroBytes⟩
        (some 0x99) none =
      (false, some 0x08, ⟨true, 0x08, .idle, 0, 0, 0, zeroBytes⟩) :=
  C7_awaiting_reject ⟨true, 0x08, .awaitingCommand, 0, 0, 0, zeroBytes⟩
    (some 0x99) none rfl rfl (by decide) (by decide) (by decide)

/-! ## Card-level transaction runs (for the byte-protocol claims) -/

/-- Drive the card through a list of transfers, threading the data variable
exactly as a host reusing one response variable would; returns the last
transfer's (ack, data) pair together with the final card. -/
def runSends (c : MemoryCard) (acc : Bool × TriState) :
    List TriState → Bool × TriState × MemoryCard
  | [] => (acc.1, acc.2, c)
  | x :: rest =>
      let r := c.send x acc.2
      runSends r.2.2 (r.1, r.2.1) rest

theorem runSends_append (c : MemoryCard) (acc : Bool × TriState)
    (l1 l2 : List TriState) :
    runSends c acc (l1 ++ l2) =
      runSends (runSends c acc l1).2.2
        ((runSends c acc l1).1, (runSends c acc l1).2.1) l2 := by
  induction l1 generalizing c acc with
  | nil => rfl
  | cons x rest ih => rw [List.cons_append, runSends, runSends, ih]

/-- The 128-transfer data phase of a write on a non-poisoned address: every
decoded byte is stored, the checksum accumulates every decoded byte, and the
machine moves to the checksum step. -/
theorem writeDataPhaseValid (ds : List TriState) (f a k cs : Nat) (B : Nat → Nat)
    (acc : Bool × TriState) (hne : ds ≠ []) (hk : k + ds.length = 128)
    (ha : a ≠ 0xFFFF) :
    runSends ⟨true, f, .writeDataCommand .sendDataSector, a, k, cs, B⟩ acc ds =
      (true, some 0x00,
        ⟨true, f, .writeDataCommand .sendChecksum, a, 128,
          List.foldl (fun x y => x ^^^ y) cs (ds.map (fun x => x.getD 0xFF)),
          writeRange B (a * SECTOR_SIZE + k) (ds.map (fun x => x.getD 0xFF))⟩) := by
  induction ds generalizing k cs B acc with
  | nil => exact absurd rfl hne
  | cons b bs ih =>
      have hklt : k < 128 := by simp at hk; omega
      have hmod : (k + 1) % 256 = k + 1 := Nat.mod_eq_of_lt (by omega)
      rcases eq_or_ne bs [] with hbs | hbs
      · subst hbs
        have hk127 : k = 127 := by simp at hk; omega
        subst hk127
        simp [runSends, MemoryCard.send, MemoryCard.write_data_command, ha,
          writeRange, List.foldl]
      · have hlen : bs.length ≠ 0 := fun h => hbs (List.eq_nil_of_length_eq_zero h)
        have hne128 : ¬ (k + 1 = 128) := by simp at hk; omega
        rw [runSends]
        simp only [MemoryCard.send, MemoryCard.write_data_command, ha, ne_eq,
          not_false_iff, if_true, hmod, if_neg hne128, Bool.true_eq_false,
          if_false, ite_true, ite_false]
        rw [ih (k + 1) (cs ^^^ b.getD 0xFF)
          (Function.update B (a * SECTOR_SIZE + k) (b.getD 0xFF))
          (true, some 0x00) hbs (by simp at hk ⊢; omega)]
        simp [List.foldl_cons, writeRange, Nat.add_assoc]

/-- The 128-transfer data phase of a write on the poisoned address 0xFFFF:
the backing store is untouched, yet every decoded byte is consumed and
accumulated into the checksum. -/
theorem writeDataPhasePoisoned (ds : List TriState) (f k cs : Nat) (B : Nat → Nat)
    (acc : Bool × TriState) (hne : ds ≠ []) (hk : k + ds.length = 128) :
    runSends ⟨true, f, .writeDataCommand .sendDataSector, 0xFFFF, k, cs, B⟩ acc ds =
      (true, some 0x00,
        ⟨true, f, .writeDataCommand .sendChecksum, 0xFFFF, 128,
          List.foldl (fun x y => x ^^^ y) cs (ds.map (fun x => x.getD 0xFF)), B⟩) := by
  induction ds generalizing k cs acc with
  | nil => exact absurd rfl hne
  | cons b bs ih =>
      have hklt : k < 128 := by simp at hk; omega
      have hmod : (k + 1) % 256 = k + 1 := Nat.mod_eq_of_lt (by omega)
      rcases eq_or_ne bs [] with hbs | hbs
      · subst hbs
        have hk127 : k = 127 := by simp at hk; omega
        subst hk127
        simp [runSends, MemoryCard.send, MemoryCard.write_data_command, List.foldl]
      · have hlen : bs.length ≠ 0 := fun h => hbs (List.eq_nil_of_length_eq_zero h)
        have hne128 : ¬ (k + 1 = 128) := by simp at hk; omega
        rw [runSends]
        simp only [MemoryCard.send, MemoryCard.write_data_command, ne_eq,
          not_true, hmod, if_neg hne128, Bool.true_eq_false, if_false,
          ite_true, ite_false, not_false_iff]
        rw [ih (k + 1) (cs ^^^ b.getD 0xFF) (true, some 0x00) hbs
          (by simp at hk ⊢; omega)]
        simp [List.foldl_cons]

/-- The last four transfers of a write transaction, starting at the checksum
step: checksum verdict, the two command-acknowledge bytes, then the
end-status byte with no ACK and a return to Idle. -/
theorem writeTail (f A cs : Nat) (B : Nat → Nat) (chk a1 a2 e : TriState)
    (acc : Bool × TriState) :
    runSends ⟨true, f, .writeDataCommand .sendChecksum, A, 128, cs, B⟩ acc
      [chk, a1, a2, e] =
      (false,
        some (if A = 0xFFFF then 0xFF
          else if chk.getD (cs ^^^ 0xFF) = cs then 0x47 else 0x4E),
        ⟨true, f, .idle, A, 128,
          (if chk.getD (cs ^^^ 0xFF) = cs then 0x00 else 0xFF), B⟩) := by
  by_cases hs : chk.getD (cs ^^^ 0xFF) = cs <;>
    by_cases hA : A = 0xFFFF <;>
      simp [runSends, MemoryCard.send, MemoryCard.write_data_command, hs, hA]

/-! ## C4 -/

/-- C4: for every complete 136-transfer write-sector transaction on a powered
card, the end-status byte of the final transfer is 0xFF if the decoded
address is out of range (> 0x3FF), else 0x4E if the host-sent checksum byte
differs from the card's computed XOR of address MSB, address LSB and the 128
received data bytes, else 0x47; the final transfer does not ACK and the card
returns to Idle; the bad-sector verdict takes precedence. -/
theorem C4_write_end_status (f a0 k0 cs0 : Nat) (B : Nat → Nat)
    (x0 x1 msb lsb chk a1 a2 e : TriState) (ds : List TriState)
    (_hm : msb.getD 0xFF < 256) (hl : lsb.getD 0xFF < 256)
    (hds : ds.length = 128) :
    (runSends ⟨true, f, .writeDataCommand .recvMemcardId1, a0, k0, cs0, B⟩
        (true, none) (x0 :: x1 :: msb :: lsb :: (ds ++ [chk, a1, a2, e]))).1 =
      false ∧
    (runSends ⟨true, f, .writeDataCommand .recvMemcardId1, a0, k0, cs0, B⟩
        (true, none) (x0 :: x1 :: msb :: lsb :: (ds ++ [chk, a1, a2, e]))).2.1 =
      some (if msb.getD 0xFF <<< 8 ||| lsb.getD 0xFF > 0x3FF then 0xFF
        else if chk ≠ some (List.foldl (fun x y => x ^^^ y)
            (msb.getD 0xFF ^^^ lsb.getD 0xFF) (ds.map (fun x => x.getD 0xFF)))
          then 0x4E else 0x47) ∧
    (runSends ⟨true, f, .writeDataCommand .recvMemcardId1, a0, k0, cs0, B⟩
        (true, none) (x0 :: x1 :: msb :: lsb :: (ds ++ [chk, a1, a2, e]))).2.2.state =
      .idle := by
  have hne : ds ≠ [] := by intro h; rw [h] at hds; simp at hds
  have hl' := lor_shiftLeft_land (msb.getD 0xFF) (lsb.getD 0xFF) hl
  have step4 : runSends ⟨true, f, .writeDataCommand .recvMemcardId1, a0, k0, cs0, B⟩
      (true, none) (x0 :: x1 :: msb :: lsb :: (ds ++ [chk, a1, a2, e])) =
      runSends ⟨true, f, .writeDataCommand .sendDataSector,
          (if msb.getD 0xFF <<< 8 ||| lsb.getD 0xFF > LAST_SECTOR then 0xFFFF
           else msb.getD 0xFF <<< 8 ||| lsb.getD 0xFF),
          0, msb.getD 0xFF ^^^ lsb.getD 0xFF, B⟩
        (true, some 0x00) (ds ++ [chk, a1, a2, e]) := by
    simp [runSends, MemoryCard.send, MemoryCard.write_data_command, hl']
  rw [step4, runSends_append]
  by_cases hgt : msb.getD 0xFF <<< 8 ||| lsb.getD 0xFF > LAST_SECTOR
  · rw [if_pos hgt,
      writeDataPhasePoisoned ds f 0 (msb.getD 0xFF ^^^ lsb.getD 0xFF) B
        (true, some 0x00) hne (by rw [hds])]
    dsimp only
    rw [writeTail]
    rw [LAST_SECTOR] at hgt
    simp [hgt]
  · rw [if_neg hgt]
    have hA : (msb.getD 0xFF <<< 8 ||| lsb.getD 0xFF) ≠ 0xFFFF := by
      rw [LAST_SECTOR] at hgt; omega
    rw [writeDataPhaseValid ds f (msb.getD 0xFF <<< 8 ||| lsb.getD 0xFF) 0
      (msb.getD 0xFF ^^^ lsb.getD 0xFF) B (true, some 0x00) hne (by rw [hds]) hA]
    dsimp only
    rw [writeTail]
    rw [LAST_SECTOR] at hgt
    refine ⟨rfl, ?_, rfl⟩
    rcases chk with _ | v
    · simp only [Option.getD_none, if_neg hA, if_neg (xor_255_ne _), hgt, ite_false,
        if_neg hgt]
      simp
    · simp only [Option.getD_some, if_neg hA, if_neg hgt]
      by_cases hv : v = List.foldl (fun x y => x ^^^ y)
          (msb.getD 0xFF ^^^ lsb.getD 0xFF) (ds.map (fun x => x.getD 0xFF))
      · simp [hv]
      · simp [hv, if_neg hv]

/-- Witness for C4: address 0x005, 128 data bytes 0x01, matching checksum. -/
theorem C4_witness :
    (runSends ⟨true, 0x08, .writeDataCommand .recvMemcardId1, 0, 0, 0, zeroBytes⟩
        (true, none)
        (some 0x00 :: some 0x00 :: some 0x00 :: some 0x05 ::
          (List.replicate 128 (some 0x01) ++
            [some 0x05, some 0x00, some 0x00, some 0x00]))).1 = false ∧
    (runSends ⟨true, 0x08, .writeDataCommand .recvMemcardId1, 0, 0, 0, zeroBytes⟩
        (true, none)
        (some 0x00 :: some 0x00 :: some 0x00 :: some 0x05 ::
          (List.replicate 128 (some 0x01) ++
            [some 0x05, some 0x00, some 0x00, some 0x00]))).2.1 =
      some (if (some 0x00 : TriState).getD 0xFF <<< 8 |||
            (some 0x05 : TriState).getD 0xFF > 0x3FF then 0xFF
        else if (some 0x05 : TriState) ≠ some (List.foldl (fun x y => x ^^^ y)
            ((some 0x00 : TriState).getD 0xFF ^^^ (some 0x05 : TriState).getD 0xFF)
            ((List.replicate 128 (some 0x01 : TriState)).map (fun x => x.getD 0xFF)))
          then 0x4E else 0x47) ∧
    (runSends ⟨true, 0x08, .writeDataCommand .recvMemcardId1, 0, 0, 0, zeroBytes⟩
        (true, none)
        (some 0x00 :: some 0x00 :: some 0x00 :: some 0x05 ::
          (List.replicate 128 (some 0x01) ++
            [some 0x05, some 0x00, some 0x00, some 0x00]))).2.2.state = .idle :=
  C4_write_end_status 0x08 0 0 0 zeroBytes (some 0x00) (some 0x00) (some 0x00)
    (some 0x05) (some 0x05) (some 0x00) (some 0x00) (some 0x00)
    (List.replicate 128 (some 0x01)) (by decide) (by decide) (by simp)

/-! ## C9 -/

/-- C9: a complete write-sector transaction whose decoded address is out of
range (poisoned to 0xFFFF) leaves every byte of the backing store unchanged
and ends with the 0xFF verdict, even though all 128 data bytes are consumed
and accumulated into the card's checksum (shown by the checksum value the
card holds after the 128 data transfers). -/
theorem C9_poisoned_write_preserves_store (f a0 k0 cs0 : Nat) (B : Nat → Nat)
    (x0 x1 msb lsb chk a1 a2 e : TriState) (ds : List TriState)
    (hl : lsb.getD 0xFF < 256) (hds : ds.length = 128)
    (hgt : msb.getD 0xFF <<< 8 ||| lsb.getD 0xFF > 0x3FF) :
    (runSends ⟨true, f, .writeDataCommand .recvMemcardId1, a0, k0, cs0, B⟩
        (true, none) (x0 :: x1 :: msb :: lsb :: (ds ++ [chk, a1, a2, e]))).2.2.bytes =
      B ∧
    (runSends ⟨true, f, .writeDataCommand .recvMemcardId1, a0, k0, cs0, B⟩
        (true, none) (x0 :: x1 :: msb :: lsb :: (ds ++ [chk, a1, a2, e]))).1 =
      false ∧
    (runSends ⟨true, f, .writeDataCommand .recvMemcardId1, a0, k0, cs0, B⟩
        (true, none) (x0 :: x1 :: msb :: lsb :: (ds ++ [chk, a1, a2, e]))).2.1 =
      some 0xFF ∧
    (runSends ⟨true, f, .writeDataCommand .recvMemcardId1, a0, k0, cs0, B⟩
        (true, none) (x0 :: x1 :: msb :: lsb :: ds)).2.2.checksum =
      List.foldl (fun x y => x ^^^ y) (msb.getD 0xFF ^^^ lsb.getD 0xFF)
        (ds.map (fun x => x.getD 0xFF)) := by
  have hne : ds ≠ [] := by intro h; rw [h] at hds; simp at hds
  have hl' := lor_shiftLeft_land (msb.getD 0xFF) (lsb.getD 0xFF) hl
  have hgt' : msb.getD 0xFF <<< 8 ||| lsb.getD 0xFF > LAST_SECTOR := by
    rw [LAST_SECTOR]; omega
  have step4 : ∀ rest : List TriState,
      runSends ⟨true, f, .writeDataCommand .recvMemcardId1, a0, k0, cs0, B⟩
        (true, none) (x0 :: x1 :: msb :: lsb :: rest) =
      runSends ⟨true, f, .writeDataCommand .sendDataSector, 0xFFFF,
          0, msb.getD 0xFF ^^^ lsb.getD 0xFF, B⟩
        (true, some 0x00) rest := by
    intro rest
    simp [runSends, MemoryCard.send, MemoryCard.write_data_command, hl', hgt']
  refine ⟨?_, ?_, ?_, ?_⟩
  · rw [step4, runSends_append,
      writeDataPhasePoisoned ds f 0 (msb.getD 0xFF ^^^ lsb.getD 0xFF) B
        (true, some 0x00) hne (by rw [hds])]
    dsimp only
    rw [writeTail]
  · rw [step4, runSends_append,
      writeDataPhasePoisoned ds f 0 (msb.getD 0xFF ^^^ lsb.getD 0xFF) B
        (true, some 0x00) hne (by rw [hds])]
    dsimp only
    rw [writeTail]
  · rw [step4, runSends_append,
      writeDataPhasePoisoned ds f 0 (msb.getD 0xFF ^^^ lsb.getD 0xFF) B
        (true, some 0x00) hne (by rw [hds])]
    dsimp only
    rw [writeTail]
    simp
  · rw [step4,
      writeDataPhasePoisoned ds f 0 (msb.getD 0xFF ^^^ lsb.getD 0xFF) B
        (true, some 0x00) hne (by rw [hds])]

/-- Witness for C9: address MSB 0x04 decodes to sector 0x0400, out of range. -/
theorem C9_witness :
    (runSends ⟨true, 0x08, .writeDataCommand .recvMemcardId1, 0, 0, 0, zeroBytes⟩
        (true, none)
        (some 0x00 :: some 0x00 :: some 0x04 :: some 0x00 ::
          (List.replicate 128 (some 0x01) ++
            [some 0x04, some 0x00, some 0x00, some 0x00]))).2.2.bytes =
      zeroBytes ∧
    (runSends ⟨true, 0x08, .writeDataCommand .recvMemcardId1, 0, 0, 0, zeroBytes⟩
        (true, none)
        (some 0x00 :: some 0x00 :: some 0x04 :: some 0x00 ::
          (List.replicate 128 (some 0x01) ++
            [some 0x04, some 0x00, some 0x00, some 0x00]))).1 = false ∧
    (runSends ⟨true, 0x08, .writeDataCommand .recvMemcardId1, 0, 0, 0, zeroBytes⟩
        (true, none)
        (some 0x00 :: some 0x00 :: some 0x04 :: some 0x00 ::
          (List.replicate 128 (some 0x01) ++
            [some 0x04, some 0x00, some 0x00, some 0x00]))).2.1 = some 0xFF ∧
    (runSends ⟨true, 0x08, .writeDataCommand .recvMemcardId1, 0, 0, 0, zeroBytes⟩
        (true, none)
        (some 0x00 :: some 0x00 :: some 0x04 :: some 0x00 ::
          List.replicate 128 (some 0x01))).2.2.checksum =
      List.foldl (fun x y => x ^^^ y)
        ((some 0x04 : TriState).getD 0xFF ^^^ (some 0x00 : TriState).getD 0xFF)
        ((List.replicate 128 (some 0x01 : TriState)).map (fun x => x.getD 0xFF)) :=
  C9_poisoned_write_preserves_store 0x08 0 0 0 zeroBytes (some 0x00) (some 0x00)
    (some 0x04) (some 0x00) (some 0x04) (some 0x00) (some 0x00) (some 0x00)
    (List.replicate 128 (some 0x01)) (by decide) (by simp) (by decide)

/-! ## C5 -/

set_option maxRecDepth 30000 in
/-- C5 counterexample: two otherwise identical complete write transactions
from Idle, whose 128 data bytes XOR (with the address bytes) to 0xFF. When
the host-checksum transfer carries 0xFF the card reports a good write (0x47);
when that transfer is absent (high-impedance) the card reports a bad
checksum (0x4E). So the card does not treat an absent host-checksum byte as
0xFF: it substitutes the complement of its computed checksum instead
(MemoryCard.cpp, sent_checksum = command.value_or(~this->_checksum)). -/
theorem C5_counterexample :
    (runSends ⟨true, 0x08, .idle, 0, 0, 0, zeroBytes⟩ (true, none)
      (([some 0x81, some 0x57, some 0x00, some 0x00, some 0x00, some 0x00] ++
        (some 0xFF :: List.replicate 127 (some 0x00))) ++
        (none :: [some 0x00, some 0x00, some 0x00]))).2.1 = some 0x4E ∧
    (runSends ⟨true, 0x08, .idle, 0, 0, 0, zeroBytes⟩ (true, none)
      (([some 0x81, some 0x57, some 0x00, some 0x00, some 0x00, some 0x00] ++
        (some 0xFF :: List.replicate 127 (some 0x00))) ++
        ((some 0xFF) :: [some 0x00, some 0x00, some 0x00]))).2.1 = some 0x47 := by
  constructor <;> decide

/-- C5 amended: wherever the card needs a concrete value from an absent
input at the address MSB/LSB steps (read and write) and at the 128 data
steps of a write, it behaves exactly as if 0xFF had been received; at the
host-checksum step of a write, however, an absent input is replaced by the
bitwise complement of the card's computed checksum (forcing a bad-checksum
verdict), not by 0xFF. -/
theorem C5_amended_highz_substitution (c : MemoryCard) (d : TriState)
    (hp : c.powered_on = true) :
    ((c.state = .writeDataCommand .sendAddressMSB ∨
      c.state = .writeDataCommand .sendAddressLSB ∨
      c.state = .writeDataCommand .sendDataSector ∨
      c.state = .readDataCommand .sendAddressMSB ∨
      c.state = .readDataCommand .sendAddressLSB) →
      c.send none d = c.send (some 0xFF) d) ∧
    (c.state = .writeDataCommand .sendChecksum →
      c.send none d = c.send (some (c.checksum ^^^ 0xFF)) d) := by
  obtain ⟨p, f, st, a, k, cs, B⟩ := c
  simp only at hp
  subst hp
  constructor
  · intro h
    rcases h with h | h | h | h | h <;> (simp only at h; subst h; rfl)
  · intro h
    simp only at h
    subst h
    rfl

/-- Witness for the amended C5 at the write-path address MSB step. -/
theorem C5_witness :
    MemoryCard.send ⟨true, 0x08, .writeDataCommand .sendAddressMSB, 0, 0, 0, zeroBytes⟩
        none none =
      MemoryCard.send ⟨true, 0x08, .writeDataCommand .sendAddressMSB, 0, 0, 0, zeroBytes⟩
        (some 0xFF) none :=
  (C5_amended_highz_substitution
    ⟨true, 0x08, .writeDataCommand .sendAddressMSB, 0, 0, 0, zeroBytes⟩
    none rfl).1 (Or.inl rfl)

/-! ## C8: power invariant machinery -/

/-- A single transfer never changes whether the card is powered. -/
theorem send_power (c : MemoryCard) (x d : TriState) :
    (c.send x d).2.2.powered_on = c.powered_on := by
  obtain ⟨p, f, st, a, k, cs, B⟩ := c
  cases p
  · rfl
  · cases st with
    | idle =>
        simp only [MemoryCard.send, Bool.true_eq_false, if_false, ite_false]
        split <;> rfl
    | awaitingCommand =>
        simp only [MemoryCard.send, Bool.true_eq_false, if_false, ite_false]
        split <;> try rfl
        split <;> try rfl
        split <;> rfl
    | readDataCommand rs =>
        cases rs <;>
          simp only [MemoryCard.send, MemoryCard.read_data_command,
            Bool.true_eq_false, if_false, ite_false]
        all_goals split <;> rfl
    | writeDataCommand ws =>
        cases ws <;>
          simp only [MemoryCard.send, MemoryCard.write_data_command,
            Bool.true_eq_false, if_false, ite_false]
    | getMemcardIdCommand gs =>
        cases gs <;>
          simp only [MemoryCard.send, MemoryCard.get_memcard_id_command,
            Bool.true_eq_false, if_false, ite_false]

theorem sendCommandSeq_power (l : List (Nat × TriState)) (c : MemoryCard)
    (out : TriState) :
    (sendCommandSeq c out l).2.2.powered_on = c.powered_on := by
  induction l generalizing c out with
  | nil => rfl
  | cons p rest ih =>
      obtain ⟨cmd, expected⟩ := p
      simp only [sendCommandSeq]
      split
      · exact send_power c (some cmd) out
      · split
        · exact send_power c (some cmd) out
        · rw [ih, send_power]

theorem readSectorData_power (n : Nat) (c : MemoryCard) (out : TriState)
    (cs : Nat) :
    (readSectorData c out cs n).2.2.2.2.powered_on = c.powered_on := by
  induction n generalizing c out cs with
  | zero => rfl
  | succ n ih =>
      simp only [readSectorData]
      split
      · exact send_power c (some 0x00) out
      · split
        · exact send_power c (some 0x00) out
        · dsimp only; rw [ih, send_power]

theorem writeSectorData_power (d : List Nat) (c : MemoryCard) (out : TriState)
    (cs : Nat) :
    (writeSectorData c out cs d).2.2.2.powered_on = c.powered_on := by
  induction d generalizing c out cs with
  | nil => rfl
  | cons b rest ih =>
      simp only [writeSectorData]
      split
      · exact send_power c (some b) out
      · rw [ih, send_power]

theorem writeSectorFooter_power (l : List (TriState × Bool)) (c : MemoryCard)
    (out : TriState) :
    (writeSectorFooter c out l).2.2.powered_on = c.powered_on := by
  induction l generalizing c out with
  | nil => rfl
  | cons p rest ih =>
      obtain ⟨expected, ackRequired⟩ := p
      simp only [writeSectorFooter]
      split
      · exact send_power c (some 0x00) out
      · split
        · exact send_power c (some 0x00) out
        · rw [ih, send_power]

/-- Every card the slot can hold is powered on. -/
def SlotInv (s : MemoryCardSlot) : Prop :=
  ∀ c, s.inserted_card = some c → c.powered_on = true

theorem slotInv_some (card : MemoryCard) (h : card.powered_on = true) :
    SlotInv ⟨some card⟩ := by
  intro c hc
  cases hc
  exact h

theorem send_slotInv (s : MemoryCardSlot) (x d : TriState) (h : SlotInv s) :
    SlotInv (s.send x d).2.2 := by
  rcases s with ⟨_ | card⟩
  · exact h
  · exact slotInv_some _ (by rw [send_power]; exact h card rfl)

theorem read_sector_slotInv (s : MemoryCardSlot) (i : Nat) (buf : List Nat)
    (h : SlotInv s) : SlotInv (s.read_sector i buf).2.2 := by
  rcases s with ⟨_ | card⟩
  · exact h
  · have hc := h card rfl
    simp only [MemoryCardSlot.read_sector]
    split
    · exact slotInv_some _ (by rw [sendCommandSeq_power]; exact hc)
    · split
      · exact slotInv_some _
          (by rw [readSectorData_power, sendCommandSeq_power]; exact hc)
      · split
        · exact slotInv_some _
            (by rw [send_power, readSectorData_power, sendCommandSeq_power]; exact hc)
        · exact slotInv_some _
            (by rw [send_power, send_power, readSectorData_power,
                  sendCommandSeq_power]; exact hc)

theorem write_sector_slotInv (s : MemoryCardSlot) (i : Nat) (d : List Nat)
    (h : SlotInv s) : SlotInv (s.write_sector i d).2 := by
  rcases s with ⟨_ | card⟩
  · exact h
  · have hc := h card rfl
    simp only [MemoryCardSlot.write_sector]
    split
    · exact slotInv_some _ (by rw [sendCommandSeq_power]; exact hc)
    · split
      · exact slotInv_some _
          (by rw [writeSectorData_power, sendCommandSeq_power]; exact hc)
      · split
        · exact slotInv_some _
            (by rw [send_power, writeSectorData_power, sendCommandSeq_power]; exact hc)
        · split
          · exact slotInv_some _
              (by rw [writeSectorFooter_power, send_power, writeSectorData_power,
                    sendCommandSeq_power]; exact hc)
          · exact slotInv_some _
              (by rw [writeSectorFooter_power, send_power, writeSectorData_power,
                    sendCommandSeq_power]; exact hc)

theorem readBlockSectors_slotInv (n : Nat) (s : MemoryCardSlot)
    (blockSector k : Nat) (buf : List Nat) (h : SlotInv s) :
    SlotInv (readBlockSectors s blockSector k buf n).2.2 := by
  induction n generalizing s k buf with
  | zero => exact h
  | succ n ih =>
      simp only [readBlockSectors]
      split
      · exact read_sector_slotInv s (blockSector + k) _ h
      · exact ih _ _ _ (read_sector_slotInv s (blockSector + k) _ h)

theorem read_block_slotInv (s : MemoryCardSlot) (i : Nat) (buf : List Nat)
    (h : SlotInv s) : SlotInv (s.read_block i buf).2.2 := by
  rcases s with ⟨_ | card⟩
  · exact h
  · exact readBlockSectors_slotInv _ _ _ _ _ h

theorem readCardBlocks_slotInv (n : Nat) (s : MemoryCardSlot) (k : Nat)
    (buf : List Nat) (h : SlotInv s) :
    SlotInv (readCardBlocks s k buf n).2.2 := by
  induction n generalizing s k buf with
  | zero => exact h
  | succ n ih =>
      simp only [readCardBlocks]
      split
      · exact read_block_slotInv s k _ h
      · exact ih _ _ _ (read_block_slotInv s k _ h)

theorem read_card_slotInv (s : MemoryCardSlot) (buf : List Nat)
    (h : SlotInv s) : SlotInv (s.read_card buf).2.2 := by
  rcases s with ⟨_ | card⟩
  · exact h
  · exact readCardBlocks_slotInv _ _ _ _ h

theorem insert_card_slotInv (s : MemoryCardSlot) (card : MemoryCard)
    (h : SlotInv s) : SlotInv (s.insert_card card).2 := by
  rcases s with ⟨_ | c0⟩
  · simp only [MemoryCardSlot.insert_card]
    split
    · exact h
    · rename_i hok
      refine slotInv_some _ ?_
      rw [MemoryCard.power_on] at hok ⊢
      split at hok
      · rename_i hoff
        rw [if_pos hoff]
      · simp at hok
  · exact h

theorem remove_card_slotInv (s : MemoryCardSlot) (h : SlotInv s) :
    SlotInv (s.remove_card).2.1 := by
  rcases s with ⟨_ | c0⟩
  · exact h
  · intro c hc
    simp [MemoryCardSlot.remove_card] at hc

/-- The operations a host can perform on a slot (insert_card, remove_card,
byte-level send, and the high-level read/write family). -/
inductive SlotOp
  | insertCard (c : MemoryCard)
  | removeCard
  | sendB (command data : TriState)
  | readSector (i : Nat) (buf : List Nat)
  | writeSector (i : Nat) (d : List Nat)
  | readBlock (i : Nat) (buf : List Nat)
  | writeBlock (i : Nat) (d : List Nat)
  | readCard (buf : List Nat)
  | writeCard (d : List Nat)

/-- The slot state after performing one operation. -/
def applySlotOp (s : MemoryCardSlot) : SlotOp → MemoryCardSlot
  | .insertCard c => (s.insert_card c).2
  | .removeCard => (s.remove_card).2.1
  | .sendB x d => (s.send x d).2.2
  | .readSector i buf => (s.read_sector i buf).2.2
  | .writeSector i d => (s.write_sector i d).2
  | .readBlock i buf => (s.read_block i buf).2.2
  | .writeBlock i d => s.write_block i d
  | .readCard buf => (s.read_card buf).2.2
  | .writeCard d => s.write_card d

/-- The slot state after a sequence of operations. -/
def runSlotOps (s : MemoryCardSlot) : List SlotOp → MemoryCardSlot
  | [] => s
  | op :: rest => runSlotOps (applySlotOp s op) rest

theorem applySlotOp_slotInv (s : MemoryCardSlot) (op : SlotOp) (h : SlotInv s) :
    SlotInv (applySlotOp s op) := by
  cases op with
  | insertCard c => exact insert_card_slotInv s c h
  | removeCard => exact remove_card_slotInv s h
  | sendB x d => exact send_slotInv s x d h
  | readSector i buf => exact read_sector_slotInv s i buf h
  | writeSector i d => exact write_sector_slotInv s i d h
  | readBlock i buf => exact read_block_slotInv s i buf h
  | writeBlock i d => exact h
  | readCard buf => exact read_card_slotInv s buf h
  | writeCard d => exact h

theorem runSlotOps_slotInv (ops : List SlotOp) (s : MemoryCardSlot)
    (h : SlotInv s) : SlotInv (runSlotOps s ops) := by
  induction ops generalizing s with
  | nil => exact h
  | cons op rest ih => exact ih _ (applySlotOp_slotInv s op h)

/-! ## C8 -/

/-- C8: starting from an empty slot, after any sequence of slot operations
the slot never holds a card that reports powered_on = false; insert_card
returns true only if the card's power_on succeeded; and remove_card powers
the card off before clearing the slot, leaving the removed card unpowered. -/
theorem C8_slot_power_invariant :
    (∀ ops : List SlotOp, SlotInv (runSlotOps MemoryCardSlot.emptySlot ops)) ∧
    (∀ (s : MemoryCardSlot) (card : MemoryCard),
      (s.insert_card card).1 = true → (card.power_on).1 = true) ∧
    (∀ (s : MemoryCardSlot) (card : MemoryCard),
      s.inserted_card = some card →
        s.remove_card = (true, ⟨none⟩, some card.power_off.2) ∧
        (card.power_off.2).powered_on = false) := by
  refine ⟨?_, ?_, ?_⟩
  · intro ops
    refine runSlotOps_slotInv ops _ ?_
    intro c hc
    simp [MemoryCardSlot.emptySlot] at hc
  · intro s card h
    rcases s with ⟨_ | c0⟩
    · simp only [MemoryCardSlot.insert_card] at h
      split at h
      · simp at h
      · rename_i hok
        simp at hok
        exact hok
    · simp [MemoryCardSlot.insert_card] at h
  · intro s card hc
    rcases s with ⟨_ | c0⟩
    · simp at hc
    · simp only at hc
      cases hc
      exact ⟨rfl, rfl⟩

/-- Witness for C8: one insertion sequence, and a concrete removal. -/
theorem C8_witness :
    SlotInv (runSlotOps MemoryCardSlot.emptySlot [SlotOp.insertCard cardOff]) ∧
    (MemoryCardSlot.remove_card ⟨some cardZ⟩ =
      (true, ⟨none⟩, some cardZ.power_off.2) ∧
      (cardZ.power_off.2).powered_on = false) :=
  ⟨C8_slot_power_invariant.1 [SlotOp.insertCard cardOff],
   C8_slot_power_invariant.2.2 ⟨some cardZ⟩ cardZ rfl⟩

/-! ## C10: bounds invariant for backing-store accesses -/

/-- Drive the card through a list of (command, data-variable) transfers,
keeping only the card state. -/
def runCard (c : MemoryCard) : List (TriState × TriState) → MemoryCard
  | [] => c
  | p :: rest => runCard (c.send p.1 p.2).2.2 rest

/-- The state invariant that protects every get_sector access: whenever the
card sits in (or can still reach without re-deriving the address) a data
phase, its address is a valid sector or the poison value, and the byte
counter has not passed 127. -/
def Inv (c : MemoryCard) : Prop :=
  match c.state with
  | .readDataCommand rs =>
      match rs with
      | .recvCommandAck1 | .recvCommandAck2 | .recvConfirmAddressMSB
      | .recvConfirmAddressLSB => c.address ≤ 0x3FF ∨ c.address = 0xFFFF
      | .recvDataSector => c.address ≤ 0x3FF ∧ c.byte_counter ≤ 127
      | _ => True
  | .writeDataCommand ws =>
      match ws with
      | .sendDataSector =>
          (c.address ≤ 0x3FF ∨ c.address = 0xFFFF) ∧ c.byte_counter ≤ 127
      | _ => True
  | _ => True

theorem send_inv (c : MemoryCard) (x d : TriState) (h : Inv c) :
    Inv (c.send x d).2.2 := by
  obtain ⟨p, f, st, a, k, cs, B⟩ := c
  cases p
  · exact h
  · cases st with
    | idle =>
        simp only [MemoryCard.send, Bool.true_eq_false, if_false, ite_false]
        split <;> simp [Inv]
    | awaitingCommand =>
        simp only [MemoryCard.send, Bool.true_eq_false, if_false, ite_false]
        repeat' split
        all_goals simp [Inv]
    | readDataCommand rs =>
        simp only [Inv] at h
        cases rs <;>
          simp only [MemoryCard.send, MemoryCard.read_data_command,
            Bool.true_eq_false, if_false, ite_false, LAST_SECTOR] <;>
          simp only [Inv] <;>
          repeat' split
        all_goals simp_all
        all_goals omega
    | writeDataCommand ws =>
        simp only [Inv] at h
        cases ws <;>
          simp only [MemoryCard.send, MemoryCard.write_data_command,
            Bool.true_eq_false, if_false, ite_false, LAST_SECTOR] <;>
          simp only [Inv] <;>
          repeat' split
        all_goals simp_all
        all_goals omega
    | getMemcardIdCommand gs =>
        cases gs <;>
          simp [MemoryCard.send, MemoryCard.get_memcard_id_command, Inv]

theorem runCard_inv (inputs : List (TriState × TriState)) (c : MemoryCard)
    (h : Inv c) : Inv (runCard c inputs) := by
  induction inputs generalizing c with
  | nil => exact h
  | cons p rest ih => exact ih _ (send_inv c p.1 p.2 h)

/-! ## C10 -/

/-- C10: from any idle starting state, after any transfer sequence, if the
card is in the data phase of a read, or in the data phase of a write with a
non-poisoned address (the two states in which get_sector(address) is indexed
by byte_counter), then the address is at most 0x3FF and the byte counter at
most 127, so the flat index address * SECTOR_SIZE + byte_counter is within
the CARD_SIZE = 131072 byte backing store. -/
theorem C10_sector_access_in_bounds (c0 : MemoryCard)
    (inputs : List (TriState × TriState)) (h0 : c0.state = .idle) :
    ((runCard c0 inputs).state = .readDataCommand .recvDataSector →
      (runCard c0 inputs).address ≤ 0x3FF ∧
      (runCard c0 inputs).byte_counter ≤ 127 ∧
      (runCard c0 inputs).address * SECTOR_SIZE +
        (runCard c0 inputs).byte_counter < CARD_SIZE) ∧
    ((runCard c0 inputs).state = .writeDataCommand .sendDataSector →
      (runCard c0 inputs).address ≠ 0xFFFF →
      (runCard c0 inputs).address ≤ 0x3FF ∧
      (runCard c0 inputs).byte_counter ≤ 127 ∧
      (runCard c0 inputs).address * SECTOR_SIZE +
        (runCard c0 inputs).byte_counter < CARD_SIZE) := by
  have hInv : Inv (runCard c0 inputs) := by
    refine runCard_inv inputs c0 ?_
    simp [Inv, h0]
  have hsz : SECTOR_SIZE = 128 := rfl
  have hcs : CARD_SIZE = 131072 := rfl
  constructor
  · intro hs
    simp only [Inv, hs] at hInv
    refine ⟨hInv.1, hInv.2, ?_⟩
    rw [hsz, hcs]
    omega
  · intro hs hp
    simp only [Inv, hs] at hInv
    obtain ⟨hd, hk⟩ := hInv
    have ha : (runCard c0 inputs).address ≤ 0x3FF := by
      rcases hd with hd | hd
      · exact hd
      · exact absurd hd hp
    refine ⟨ha, hk, ?_⟩
    rw [hsz, hcs]
    omega

/-- Witness for C10 on a fresh powered card and the empty transfer list. -/
theorem C10_witness :
    ((runCard cardZ []).state = .readDataCommand .recvDataSector →
      (runCard cardZ []).address ≤ 0x3FF ∧
      (runCard cardZ []).byte_counter ≤ 127 ∧
      (runCard cardZ []).address * SECTOR_SIZE +
        (runCard cardZ []).byte_counter < CARD_SIZE) ∧
    ((runCard cardZ []).state = .writeDataCommand .sendDataSector →
      (runCard cardZ []).address ≠ 0xFFFF →
      (runCard cardZ []).address ≤ 0x3FF ∧
      (runCard cardZ []).byte_counter ≤ 127 ∧
      (runCard cardZ []).address * SECTOR_SIZE +
        (runCard cardZ []).byte_counter < CARD_SIZE) :=
  C10_sector_access_in_bounds cardZ [] rfl

end Wondercard
